import Mathlib

/-!
Verification development for the mcp-playground repository: a Streamlit MCP
client (connection manager, tool catalog and dispatcher, execution bridge,
chat-session store) together with a Google Analytics 4 tool server.

Source files embedded here:
  - src/servers/ga4_server/main.py   (GA4Client and its tool wrappers)
  - src/client/app.py                (event-loop initialization, atexit hook)
  - src/client/ui_components/sidebar_components.py (history widget, tools widget)

The client modules services/chat_service.py, services/mcp_service.py and
utils/async_helpers.py are imported by the sources above but are not part of
the source snapshot; where a property depends on them they are modelled from
the specification, and each such definition is marked in its doc comment.
-/

namespace MCPPlayground

/-! ## GA4 server: src/servers/ga4_server/main.py -/

/-- Error taxonomy of google.api_core.exceptions as used by the GA4 server. -/
inductive GAError where
  | notFound (msg : String)
  | invalidArgument (msg : String)
  | permissionDenied (msg : String)
  | apiCallError (msg : String)
  deriving DecidableEq, Repr

/-- One property summary inside an account summary, as returned by
`AnalyticsAdminServiceClient.list_account_summaries`. `property` is the full
resource name such as `properties/123456`. -/
structure PropertySummary where
  display_name : String
  property : String
  deriving DecidableEq, Repr

/-- One account summary returned by the Admin API. -/
structure AccountSummary where
  display_name : String
  property_summaries : List PropertySummary
  deriving DecidableEq, Repr

/-- One record of the list produced by `GA4Client.list_accounts`. -/
structure AccountRecord where
  display_name : String
  property_id : String
  deriving DecidableEq, Repr

/-- Python `s.split("/")[-1]`: the last slash-separated segment of a string.
`String.splitOn` never returns an empty list, so the default is never used. -/
def lastSegment (s : String) : String :=
  (s.splitOn "/").getLastD ""

/-- The records the inner loop of `GA4Client.list_accounts` appends for one
account summary: one per property summary, with
`display_name = "<account> - <property>"` and `property_id` the last segment
of the property resource name. -/
def accountRecordsOf (summary : AccountSummary) : List AccountRecord :=
  summary.property_summaries.map (fun prop_summary =>
    { display_name := summary.display_name ++ " - " ++ prop_summary.display_name
      property_id := lastSegment prop_summary.property })

/-- Message payload of a GA error: the `.message` attribute of the
google.api_core exception classes, as read by the handlers via `e.message`. -/
def GAError.message : GAError → String
  | .notFound m => m
  | .invalidArgument m => m
  | .permissionDenied m => m
  | .apiCallError m => m

/-- Embedding of the try-block body of `GA4Client.list_accounts`
(src/servers/ga4_server/main.py, lines 46-59): walks every account summary;
when a summary has property summaries, appends its records; when the
collected list is empty it raises `NotFound` instead of returning it. -/
def list_accounts_body (summaries : List AccountSummary) :
    Except GAError (List AccountRecord) :=
  let accounts : List AccountRecord :=
    summaries.foldl (fun acc summary =>
      if summary.property_summaries.isEmpty then acc
      else acc ++ accountRecordsOf summary) []
  if accounts.isEmpty then
    .error (.notFound ("No Google Analytics accounts were found for your user. " ++
      "Please check your permissions."))
  else
    .ok accounts

/-- Embedding of the exception handlers of `GA4Client.list_accounts` (lines
60-71). In google.api_core, `NotFound`, `InvalidArgument` and
`PermissionDenied` are all subclasses of `GoogleAPICallError`, so: a
`PermissionDenied` is re-raised with the enriched permission message (lines
60-67); every other `GoogleAPICallError` — including the `NotFound` raised
inside the try block — is caught at line 68 and re-raised as a generic
`GoogleAPICallError` wrapping the original message (lines 68-69). The
`except Exception` arm (lines 70-71) is unreachable here because every
modelled error is a `GoogleAPICallError`. -/
def handle_list_accounts_error (e : GAError) : GAError :=
  match e with
  | .permissionDenied m =>
      .permissionDenied ("Permission Denied: Could not list Google Analytics accounts. " ++
        "Please ensure the \x27Analytics Admin API\x27 is enabled for your project " ++
        "(\x27lukaskostka\x27) " ++
        "and that your user has the necessary permissions. " ++
        "Original error: " ++ m)
  | e => .apiCallError ("A Google API error occurred while listing accounts: " ++
      e.message)

/-- Embedding of `GA4Client.list_accounts` (src/servers/ga4_server/main.py,
lines 44-71): the try-block body, with the exception handlers applied to any
error it raises. -/
def list_accounts (summaries : List AccountSummary) :
    Except GAError (List AccountRecord) :=
  match list_accounts_body summaries with
  | .ok accounts => .ok accounts
  | .error e => .error (handle_list_accounts_error e)

/-- Whether a `list_accounts` outcome surfaces a `NotFound` to the caller. -/
def surfacesNotFound : Except GAError (List AccountRecord) → Bool
  | .error (.notFound _) => true
  | _ => false

/-- A `DateRange` literal: the keyword arguments of the Python `DateRange(**dr)`
constructor, kept as a key/value record list. -/
def DateRangeSpec := List (String × String)

/-- The request sent by `GA4Client.run_report` to the Data API. -/
structure ReportRequest where
  property : String
  metrics : List String
  dimensions : List String
  date_ranges : List (List (String × String))
  deriving DecidableEq, Repr

/-- The request sent by `GA4Client.run_realtime_report` to the Data API. -/
structure RealtimeReportRequest where
  property : String
  metrics : List String
  dimensions : List String
  deriving DecidableEq, Repr

/-- One row of a Data API report response. -/
structure ReportRow where
  dimension_values : List String
  metric_values : List String
  deriving DecidableEq, Repr

/-- A Data API report response as consumed by `_format_report_response`. -/
structure ReportResponse where
  dimension_headers : List String
  metric_headers : List String
  rows : List ReportRow
  deriving DecidableEq, Repr

/-- The formatted report: headers plus one key/value row per response row
(the Python code builds `dict(zip(headers, row_data))` for each row). -/
structure FormattedReport where
  headers : List String
  rows : List (List (String × String))
  deriving DecidableEq, Repr

/-- Embedding of `GA4Client._format_report_response` (lines 106-116). -/
def format_report_response (response : ReportResponse) : FormattedReport :=
  let headers := response.dimension_headers ++ response.metric_headers
  { headers := headers
    rows := response.rows.map (fun row =>
      headers.zip (row.dimension_values ++ row.metric_values)) }

/-- Embedding of `GA4Client.run_report` (lines 73-83). The Data API client is abstracted as
a function from the built request to a response; the second component records
every request actually sent, so that "no request before the precondition check"
is observable. Python `if not property_id` is true exactly on the empty
string; `dimensions` and `date_ranges` default to `[]` when falsy. -/
def run_report (data_client : ReportRequest → ReportResponse)
    (property_id : String) (metrics : List String)
    (dimensions : Option (List String))
    (date_ranges : Option (List (List (String × String)))) :
    Except GAError FormattedReport × List ReportRequest :=
  if property_id = "" then
    (.error (.invalidArgument "property_id must be provided."), [])
  else
    let request : ReportRequest :=
      { property := "properties/" ++ property_id
        metrics := metrics
        dimensions := dimensions.getD []
        date_ranges := date_ranges.getD [] }
    (.ok (format_report_response (data_client request)), [request])

/-- Embedding of `GA4Client.run_realtime_report` (lines 85-94), abstracted like
`run_report`. -/
def run_realtime_report (data_client : RealtimeReportRequest → ReportResponse)
    (property_id : String) (metrics : List String)
    (dimensions : Option (List String)) :
    Except GAError FormattedReport × List RealtimeReportRequest :=
  if property_id = "" then
    (.error (.invalidArgument "property_id must be provided."), [])
  else
    let request : RealtimeReportRequest :=
      { property := "properties/" ++ property_id
        metrics := metrics
        dimensions := dimensions.getD [] }
    (.ok (format_report_response (data_client request)), [request])

/-- A metadata item of the Data API (`m.api_name`). -/
structure MetadataItem where
  api_name : String
  deriving DecidableEq, Repr

/-- A Data API metadata response. -/
structure MetadataResponse where
  metrics : List MetadataItem
  dimensions : List MetadataItem
  deriving DecidableEq, Repr

/-- The result of `GA4Client.get_metadata`. -/
structure MetadataResult where
  metrics : List String
  dimensions : List String
  deriving DecidableEq, Repr

/-- Embedding of `GA4Client.get_metadata` (lines 96-104). The Data API client is abstracted
as a function from the metadata resource name to a response; the second
component records the names actually requested. -/
def get_metadata (data_client : String → MetadataResponse)
    (property_id : String) :
    Except GAError MetadataResult × List String :=
  if property_id = "" then
    (.error (.invalidArgument "property_id must be provided."), [])
  else
    let name := "properties/" ++ property_id ++ "/metadata"
    let response := data_client name
    (.ok { metrics := response.metrics.map (·.api_name)
           dimensions := response.dimensions.map (·.api_name) }, [name])

/-! ## Client application: src/client/app.py and the execution bridge -/

/-- The one callback `src/client/app.py` registers with `atexit`. Its body
lives in utils/async_helpers.py, which is outside the source snapshot; only
its identity matters here, because `atexit` invokes each registration. -/
inductive AtexitCallback where
  | onShutdown
  deriving DecidableEq, Repr

/-- Process-level state of the client: the Streamlit session state's `loop`
entry (an event-loop identity, or `none` before first initialization), an
allocator for fresh event-loop identities, and the `atexit` registration
stack (last registered runs first). -/
structure AppProcState where
  loop : Option Nat
  nextLoopId : Nat
  atexitStack : List AtexitCallback
  deriving DecidableEq, Repr

/-- State of the process before the first Streamlit script run. -/
def initialAppState : AppProcState :=
  { loop := none, nextLoopId := 0, atexitStack := [] }

/-- Python `asyncio.new_event_loop()`: always allocates a fresh event-loop
object, modelled by a fresh identity. -/
def new_event_loop (s : AppProcState) : Nat × AppProcState :=
  (s.nextLoopId, { s with nextLoopId := s.nextLoopId + 1 })

/-- Lines 27-29 of src/client/app.py: `if "loop" not in st.session_state:`
create a new event loop and store it; otherwise leave the stored loop alone. -/
def init_session_loop (s : AppProcState) : AppProcState :=
  match s.loop with
  | some _ => s
  | none =>
      let (l, s') := new_event_loop s
      { s' with loop := some l }

/-- Python `atexit.register(cb)`: pushes one more registration; `atexit` does
not deduplicate, and runs every registration at process termination. -/
def atexit_register (s : AppProcState) (cb : AtexitCallback) : AppProcState :=
  { s with atexitStack := cb :: s.atexitStack }

/-- Embedding of `main()` of src/client/app.py, executed once per Streamlit script run
(every UI interaction re-runs the script): initialize the session loop if
absent, then `atexit.register(on_shutdown)` (line 32). -/
def app_main (s : AppProcState) : AppProcState :=
  atexit_register (init_session_loop s) .onShutdown

/-- How many times `on_shutdown` is invoked at process termination: `atexit`
invokes every registration it holds. -/
def shutdown_invocations (s : AppProcState) : Nat :=
  (s.atexitStack.filter (fun cb => cb == .onShutdown)).length

/-- Modelled from the spec: utils/async_helpers.run_async is not in the source
snapshot. Per spec section 4.3, `run` submits the awaitable to the one shared
session scheduler and blocks; the scheduler it uses is therefore exactly the
session's stored loop. -/
def run_async_loop (s : AppProcState) : Option Nat :=
  s.loop

/-- Python `asyncio.run(coro)` as called at line 167 of
sidebar_components.py: creates a brand-new event loop, runs the coroutine on
it, and closes it; the loop used is the fresh one, not the session loop. -/
def asyncio_run (s : AppProcState) : Nat × AppProcState :=
  new_event_loop s

/-- The client's tool-invocation sites: the conversation-turn dispatch (which
goes through the Execution Bridge), and the GA-accounts fetch in
`create_mcp_tools_widget` (sidebar_components.py lines 159-167). -/
inductive InvocationSite where
  | chatTurn
  | gaAccountsFetch
  deriving DecidableEq, Repr

/-- The scheduler identity on which a tool invocation at the given site runs:
the chat turn uses `run_async` (the bridge, hence the session loop); the
GA-accounts fetch calls `asyncio.run`, which allocates a fresh loop. -/
def invocation_loop (s : AppProcState) : InvocationSite → Option Nat
  | .chatTurn => run_async_loop s
  | .gaAccountsFetch => some (asyncio_run s).1

/-! ## MCP service: connection manager, catalog and dispatcher

services/mcp_service.py is not in the source snapshot; the definitions below
are modelled from the specification (sections 4.1 and 4.2). -/

/-- One configured MCP server endpoint (spec section 3, ServerConfig). -/
structure ServerConfig where
  name : String
  url : String
  deriving DecidableEq, Repr

/-- One tool descriptor as published by a server (spec section 3). -/
structure ToolDescriptor where
  name : String
  description : String
  input_schema : String
  deriving DecidableEq, Repr

/-- The aggregated catalog: the ordered tool sequence plus the name-to-session
routing map, sessions being identified by their connection-order index. -/
structure ToolCatalog where
  tools : List ToolDescriptor
  routing : List (String × Nat)
  deriving DecidableEq, Repr

/-- The catalog when disconnected. -/
def emptyCatalog : ToolCatalog := { tools := [], routing := [] }

/-- Routing lookup: the session index owning a tool name, if any. -/
def lookupRoute (routing : List (String × Nat)) (tool_name : String) : Option Nat :=
  (routing.find? (fun p => p.1 == tool_name)).map (·.2)

/-- Modelled from the spec: one aggregation step. Later entries overwrite
earlier ones on name collision (spec section 4.2), both in the ordered tool
sequence and in the routing map. -/
def insertToolEntry (cat : ToolCatalog) (entry : Nat × ToolDescriptor) : ToolCatalog :=
  { tools := cat.tools.filter (fun t => t.name != entry.2.name) ++ [entry.2]
    routing := cat.routing.filter (fun p => p.1 != entry.2.name) ++
      [(entry.2.name, entry.1)] }

/-- The per-server tool lists tagged with their connection-order index,
concatenated in server-connection order. -/
def entriesFrom (i : Nat) : List (List ToolDescriptor) → List (Nat × ToolDescriptor)
  | [] => []
  | l :: rest => l.map (fun t => (i, t)) ++ entriesFrom (i + 1) rest

/-- Modelled from the spec: `aggregate(per_server_tool_lists)` (section 4.2)
concatenates tool lists in server-connection order and folds them into the
catalog, later entries overwriting earlier ones on name collision. -/
def aggregate (per_server_tool_lists : List (List ToolDescriptor)) : ToolCatalog :=
  (entriesFrom 0 per_server_tool_lists).foldl insertToolEntry emptyCatalog

/-- The owner of the last entry carrying a given tool name in a tagged entry
sequence, if any: the session that wins the shadowing rule. -/
def lastOwner : List (Nat × ToolDescriptor) → String → Option Nat
  | [], _ => none
  | e :: rest, X =>
      (lastOwner rest X).or (if e.2.name = X then some e.1 else none)

/-- Connection failure, naming the endpoint that failed (spec section 7). -/
inductive ConnectError where
  | connectionError (endpointName : String)
  deriving DecidableEq, Repr

/-- The connection state: one live session (endpoint name with its fetched
tool list) per connected config, plus the aggregated catalog. -/
structure ConnectionState where
  sessions : List (String × List ToolDescriptor)
  catalog : ToolCatalog
  deriving DecidableEq, Repr

/-- The disconnected baseline state. -/
def disconnectedState : ConnectionState :=
  { sessions := [], catalog := emptyCatalog }

/-- Modelled from the spec: `connect_all` / connect_to_mcp_servers (section
4.1). Each endpoint's handshake-plus-list-tools attempt is abstracted as an
outcome function (`some tools` on success, `none` on failure). If any endpoint
fails, the first failure is surfaced and no state is produced; on success the
new state holds one session per config and the catalog aggregated from the
per-server tool lists in connection order. -/
def connect_all (outcome : ServerConfig → Option (List ToolDescriptor))
    (configs : List ServerConfig) : Except ConnectError ConnectionState :=
  match configs.find? (fun c => (outcome c).isNone) with
  | some c => .error (.connectionError c.name)
  | none =>
      .ok { sessions := configs.map (fun c => (c.name, (outcome c).getD []))
            catalog := aggregate (configs.map (fun c => (outcome c).getD [])) }

/-- The connect-button handler of `create_mcp_connection_widget`
(sidebar_components.py lines 123-130): call connect_to_mcp_servers; on
success adopt the new state, on exception display the error and keep the
prior state (the button is only rendered while disconnected). -/
def mcp_connect_click (outcome : ServerConfig → Option (List ToolDescriptor))
    (configs : List ServerConfig) (st : ConnectionState) :
    ConnectionState × Option String :=
  match connect_all outcome configs with
  | .ok newState => (newState, none)
  | .error (.connectionError n) =>
      (st, some ("Error connecting to MCP servers: " ++ n))

/-- Full population of the connection state (spec section 8): every config
has a session holding its fetched tools, and every session tool's name
appears in the aggregated catalog and is routable. (Under the shadowing rule
a duplicated name is carried by the later server's entry, so presence is by
name.) -/
def fullyPopulated (outcome : ServerConfig → Option (List ToolDescriptor))
    (configs : List ServerConfig) (st : ConnectionState) : Prop :=
  (∀ c ∈ configs, ∃ ts, outcome c = some ts ∧ (c.name, ts) ∈ st.sessions) ∧
  (∀ s ∈ st.sessions, ∀ t ∈ s.2,
    (∃ u ∈ st.catalog.tools, u.name = t.name) ∧
    (lookupRoute st.catalog.routing t.name).isSome = true)

/-- A tool call's outcome as reported by the owning server session: either a
result payload or a structured error, per the tool-server contract. -/
inductive ToolCallResult where
  | success (payload : String)
  | structuredError (msg : String)
  deriving DecidableEq, Repr

/-- Dispatch failure taxonomy (spec section 7). -/
inductive DispatchError where
  | toolNotFound (tool_name : String)
  | toolExecutionError (msg : String)
  deriving DecidableEq, Repr

/-- Modelled from the spec: `invoke` / run_tool (section 4.2). Looks up the
owning session in the routing map; if absent, fails with `ToolNotFound`
without contacting any server; otherwise forwards the call to that session
exactly once and returns its result verbatim. Server sessions are abstracted
as a function from (session index, tool name, arguments) to the session's
reply; the second component logs every network call made. -/
def run_tool (catalog : ToolCatalog)
    (sessions : Nat → String → List (String × String) → ToolCallResult)
    (tool_name : String) (arguments : List (String × String)) :
    Except DispatchError ToolCallResult ×
      List (Nat × String × List (String × String)) :=
  match lookupRoute catalog.routing tool_name with
  | none => (.error (.toolNotFound tool_name), [])
  | some owner =>
      (.ok (sessions owner tool_name arguments), [(owner, tool_name, arguments)])

/-! ## Chat session store

services/chat_service.py is not in the source snapshot; the store operations
below are modelled from the specification (section 4.4). The display widget
over the store, `create_history_chat_container`, is embedded from
src/client/ui_components/sidebar_components.py. -/

/-- One conversation thread (spec section 3, ChatSession; message history is
irrelevant to the claims and omitted). -/
structure ChatSession where
  chat_id : Nat
  chat_name : String
  deriving DecidableEq, Repr, Inhabited

/-- The chat store: `history_chats` in creation order (oldest first; the
widget reverses it for display, so the front of display order is the END of
this list), the current selection, the radio index into display order
(`none` is the empty sentinel), and a fresh-id allocator. -/
structure ChatStoreState where
  history_chats : List ChatSession
  current_chat_id : Option Nat
  current_chat_index : Option Nat
  next_chat_id : Nat
  deriving DecidableEq, Repr

/-- The store before any chat is created. -/
def initialChatStore : ChatStoreState :=
  { history_chats := [], current_chat_id := none, current_chat_index := none
    next_chat_id := 0 }

/-- The display-ordered session list: most-recent-first, i.e. the reverse of
the stored creation order. -/
def displayOrder (st : ChatStoreState) : List ChatSession :=
  st.history_chats.reverse

/-- Index of a chat id in a session list, if present. -/
def findChatIndex (chats : List ChatSession) (id : Nat) : Option Nat :=
  chats.findIdx? (fun c => c.chat_id == id)

/-- Modelled from the spec: `create_chat` (section 4.4) generates a fresh
unique identifier, inserts the new session at the front of display order,
and selects it as current (display index 0). -/
def create_chat (st : ChatStoreState) : ChatStoreState :=
  let c : ChatSession := { chat_id := st.next_chat_id, chat_name := "New Chat" }
  { history_chats := st.history_chats ++ [c]
    current_chat_id := some c.chat_id
    current_chat_index := some 0
    next_chat_id := st.next_chat_id + 1 }

/-- Modelled from the spec: `delete_chat` (section 4.4) removes the session;
a missing id is a no-op; if the deleted session was current, the next
most-recent remaining session is selected (the session now occupying the
deleted one's display position, or the last one when the oldest was deleted),
or the selection is cleared when none remain; otherwise the current session's
display index is recomputed. -/
def delete_chat (st : ChatStoreState) (id : Nat) : ChatStoreState :=
  match findChatIndex (displayOrder st) id with
  | none => st
  | some i =>
      let newHistory := st.history_chats.filter (fun c => c.chat_id != id)
      let newDisplay := newHistory.reverse
      if st.current_chat_id = some id then
        if newDisplay.isEmpty then
          { history_chats := newHistory, current_chat_id := none
            current_chat_index := none, next_chat_id := st.next_chat_id }
        else
          let j := min i (newDisplay.length - 1)
          { history_chats := newHistory
            current_chat_id := some (newDisplay.getD j default).chat_id
            current_chat_index := some j
            next_chat_id := st.next_chat_id }
      else
        { history_chats := newHistory
          current_chat_id := st.current_chat_id
          current_chat_index :=
            match st.current_chat_id with
            | none => none
            | some cid => findChatIndex newDisplay cid
          next_chat_id := st.next_chat_id }

/-- Chat-store failure for selection of an unknown id (spec section 7). -/
inductive ChatServiceError where
  | sessionNotFound (id : Nat)
  deriving DecidableEq, Repr

/-- Modelled from the spec: `select_chat` (section 4.4) fails with
`SessionNotFound` when the id is absent; otherwise updates the current id and
recomputes the index against the current display order. -/
def select_chat (st : ChatStoreState) (id : Nat) :
    Except ChatServiceError ChatStoreState :=
  match findChatIndex (displayOrder st) id with
  | none => .error (.sessionNotFound id)
  | some i =>
      .ok { st with current_chat_id := some id, current_chat_index := some i }

/-- The store mutations a UI interaction can request. -/
inductive ChatOp where
  | create
  | delete (id : Nat)
  | select (id : Nat)
  deriving DecidableEq, Repr

/-- Apply one operation; a failed selection leaves the store unchanged. -/
def applyChatOp (st : ChatStoreState) : ChatOp → ChatStoreState
  | .create => create_chat st
  | .delete id => delete_chat st id
  | .select id =>
      match select_chat st id with
      | .ok st' => st'
      | .error _ => st

/-- Run a sequence of operations from the empty store. -/
def runChatOps (ops : List ChatOp) : ChatStoreState :=
  ops.foldl applyChatOp initialChatStore

/-- The index `k` is in bounds of `chats` and addresses the session with id
`cid`. -/
def checkIndex (chats : List ChatSession) (k cid : Nat) : Bool :=
  decide (k < chats.length) && (chats.getD k default).chat_id == cid

/-- The selection-index invariant: either nothing is selected (empty
sentinel) or the index is in bounds of the display-ordered session list and
the session at that position is the current one. -/
def currentIndexValid (st : ChatStoreState) : Bool :=
  match st.current_chat_id, st.current_chat_index with
  | none, none => true
  | some cid, some k => checkIndex (displayOrder st) k cid
  | _, _ => false

/-- The radio label built by `create_history_chat_container` (line 15 of
sidebar_components.py): `f"{chat_name}_::_{chat_id}"`. -/
def chatLabel (c : ChatSession) : String :=
  c.chat_name ++ "_::_" ++ toString c.chat_id

/-- Embedding of `create_history_chat_container` (sidebar_components.py lines 14-18): the
option sequence shown by the History Chats radio — the stored chats' labels,
truncated with `[:50]` and then reversed with `[::-1]`. -/
def chat_history_menu (st : ChatStoreState) : List String :=
  ((st.history_chats.map chatLabel).take 50).reverse

/-! ## Concrete instances used to exercise the definitions -/

/-- A Data API stub returning an empty report. -/
def constReportClient : ReportRequest → ReportResponse :=
  fun _ => { dimension_headers := [], metric_headers := [], rows := [] }

/-- A realtime Data API stub returning an empty report. -/
def constRealtimeClient : RealtimeReportRequest → ReportResponse :=
  fun _ => { dimension_headers := [], metric_headers := [], rows := [] }

/-- A metadata Data API stub returning no metrics or dimensions. -/
def constMetadataClient : String → MetadataResponse :=
  fun _ => { metrics := [], dimensions := [] }

/-- An account summary with one property. -/
def acctSample : AccountSummary :=
  { display_name := "Acct"
    property_summaries := [{ display_name := "Prop", property := "properties/123456" }] }

/-- An account summary with no property summaries. -/
def acctEmpty : AccountSummary :=
  { display_name := "Bare", property_summaries := [] }

/-- Server A's catalog contribution in the end-to-end scenario of spec
section 8: one tool named `foo`. -/
def toolFooA : ToolDescriptor := { name := "foo", description := "A", input_schema := "{}" }

/-- Server B's `foo` in the same scenario. -/
def toolFooB : ToolDescriptor := { name := "foo", description := "B", input_schema := "{}" }

/-- Server B's `bar` in the same scenario. -/
def toolBar : ToolDescriptor := { name := "bar", description := "B", input_schema := "{}" }

/-- The two configured endpoints of the end-to-end scenario. -/
def configsSample : List ServerConfig :=
  [{ name := "A", url := "http://a" }, { name := "B", url := "http://b" }]

/-- Endpoint outcomes where both servers connect and list their tools. -/
def outcomeOk : ServerConfig → Option (List ToolDescriptor) :=
  fun c => if c.name = "A" then some [toolFooA] else some [toolFooB, toolBar]

/-- Endpoint outcomes where endpoint B fails to connect. -/
def outcomeFailB : ServerConfig → Option (List ToolDescriptor) :=
  fun c => if c.name = "A" then some [toolFooA] else none

/-- The aggregated catalog of the end-to-end scenario. -/
def catalogSample : ToolCatalog := aggregate [[toolFooA], [toolFooB, toolBar]]

/-- Server sessions that answer every call with a tagged payload. -/
def sessionsSample : Nat → String → List (String × String) → ToolCallResult :=
  fun owner tool_name _ => .success (toString owner ++ ":" ++ tool_name)

/-- The chat store after 51 consecutive New Chat clicks. -/
def chats51 : ChatStoreState := runChatOps (List.replicate 51 .create)

/-! ## Theorems -/

/-- The account-collecting fold of `list_accounts` flattens the per-summary
record lists; the guard on empty property-summary lists is redundant because
such summaries contribute no records. -/
theorem foldl_accountRecords (summaries : List AccountSummary)
    (acc : List AccountRecord) :
    summaries.foldl (fun acc summary =>
      if summary.property_summaries.isEmpty then acc
      else acc ++ accountRecordsOf summary) acc =
    acc ++ summaries.flatMap accountRecordsOf := by
  induction summaries generalizing acc with
  | nil => simp
  | cons s rest ih =>
    simp only [List.foldl_cons, List.flatMap_cons, ih]
    by_cases h : s.property_summaries.isEmpty
    · have hrec : accountRecordsOf s = [] := by
        have : s.property_summaries = [] := by
          simpa using h
        simp [accountRecordsOf, this]
      simp [h, hrec]
    · simp [h, List.append_assoc]

/-- C9: for every GA4 report operation (`run_report`, `run_realtime_report`,
`get_metadata`), an empty `property_id` raises `InvalidArgument` and no
request reaches the Analytics Data API, while a non-empty `property_id` never
trips this precondition check. -/
theorem ga4_reports_require_property_id
    (report_client : ReportRequest → ReportResponse)
    (realtime_client : RealtimeReportRequest → ReportResponse)
    (metadata_client : String → MetadataResponse)
    (property_id : String) (metrics : List String)
    (dimensions : Option (List String))
    (date_ranges : Option (List (List (String × String)))) :
    (property_id = "" →
      run_report report_client property_id metrics dimensions date_ranges =
        (.error (.invalidArgument "property_id must be provided."), []) ∧
      run_realtime_report realtime_client property_id metrics dimensions =
        (.error (.invalidArgument "property_id must be provided."), []) ∧
      get_metadata metadata_client property_id =
        (.error (.invalidArgument "property_id must be provided."), [])) ∧
    (property_id ≠ "" →
      (∃ r, (run_report report_client property_id metrics dimensions date_ranges).1 =
        .ok r) ∧
      (∃ r, (run_realtime_report realtime_client property_id metrics dimensions).1 =
        .ok r) ∧
      (∃ r, (get_metadata metadata_client property_id).1 = .ok r)) := by
  constructor
  · intro h
    refine ⟨?_, ?_, ?_⟩ <;>
      simp [run_report, run_realtime_report, get_metadata, h]
  · intro h
    refine ⟨?_, ?_, ?_⟩ <;>
      simp [run_report, run_realtime_report, get_metadata, h]

/-- Witness for C9 on the empty and on a non-empty property id, with stub
Data API clients. -/
theorem ga4_reports_require_property_id_witness :
    (run_report constReportClient "" ["activeUsers"] none none =
      (.error (.invalidArgument "property_id must be provided."), []) ∧
     run_realtime_report constRealtimeClient "" ["activeUsers"] none =
      (.error (.invalidArgument "property_id must be provided."), []) ∧
     get_metadata constMetadataClient "" =
      (.error (.invalidArgument "property_id must be provided."), [])) ∧
    ((∃ r, (run_report constReportClient "123456" ["activeUsers"] none none).1 =
      .ok r) ∧
     (∃ r, (run_realtime_report constRealtimeClient "123456" ["activeUsers"] none).1 =
      .ok r) ∧
     (∃ r, (get_metadata constMetadataClient "123456").1 = .ok r)) :=
  ⟨(ga4_reports_require_property_id constReportClient constRealtimeClient
      constMetadataClient "" ["activeUsers"] none none).1 rfl,
   (ga4_reports_require_property_id constReportClient constRealtimeClient
      constMetadataClient "123456" ["activeUsers"] none none).2 (by decide)⟩

/-- C10 (amended): `list_accounts` never returns an empty list — when no
account summary carries property summaries, the `NotFound` raised inside the
try block is caught by the `except GoogleAPICallError` handler and the
function fails with a generic `GoogleAPICallError` wrapping the `NotFound`
message — and every record of a successful result pairs the hyphen-joined
display name with the last slash-separated segment of the property resource
name. -/
theorem list_accounts_never_empty (summaries : List AccountSummary) :
    (∀ l, list_accounts summaries = .ok l → l ≠ []) ∧
    (∀ l, list_accounts summaries = .ok l →
      ∀ rec ∈ l, ∃ s ∈ summaries, ∃ ps ∈ s.property_summaries,
        rec.display_name = s.display_name ++ " - " ++ ps.display_name ∧
        rec.property_id = lastSegment ps.property) ∧
    ((∀ s ∈ summaries, s.property_summaries = []) →
      list_accounts summaries =
        .error (.apiCallError ("A Google API error occurred while listing accounts: " ++
          ("No Google Analytics accounts were found for your user. " ++
           "Please check your permissions.")))) := by
  have hbody : list_accounts_body summaries =
      if (summaries.flatMap accountRecordsOf).isEmpty then
        .error (.notFound ("No Google Analytics accounts were found for your user. " ++
          "Please check your permissions."))
      else .ok (summaries.flatMap accountRecordsOf) := by
    unfold list_accounts_body
    rw [foldl_accountRecords]
    simp
  have hacc : list_accounts summaries =
      if (summaries.flatMap accountRecordsOf).isEmpty then
        .error (.apiCallError ("A Google API error occurred while listing accounts: " ++
          ("No Google Analytics accounts were found for your user. " ++
           "Please check your permissions.")))
      else .ok (summaries.flatMap accountRecordsOf) := by
    unfold list_accounts
    rw [hbody]
    by_cases h : (summaries.flatMap accountRecordsOf).isEmpty
    · rw [if_pos h, if_pos h]
      rfl
    · rw [if_neg h, if_neg h]
  refine ⟨?_, ?_, ?_⟩
  · intro l hl
    rw [hacc] at hl
    by_cases h : (summaries.flatMap accountRecordsOf).isEmpty
    · rw [if_pos h] at hl
      exact absurd hl (by simp)
    · rw [if_neg h] at hl
      cases hl
      simpa using h
  · intro l hl rec hrec
    rw [hacc] at hl
    by_cases h : (summaries.flatMap accountRecordsOf).isEmpty
    · rw [if_pos h] at hl
      exact absurd hl (by simp)
    · rw [if_neg h] at hl
      cases hl
      obtain ⟨s, hs, hrec'⟩ := List.mem_flatMap.mp hrec
      obtain ⟨ps, hps, hbuild⟩ := List.mem_map.mp hrec'
      exact ⟨s, hs, ps, hps, by rw [← hbuild], by rw [← hbuild]⟩
  · intro hall
    have hnil : summaries.flatMap accountRecordsOf = [] := by
      rw [List.flatMap_eq_nil_iff]
      intro s hs
      simp [accountRecordsOf, hall s hs]
    rw [hacc, hnil]
    rfl

/-- C10 counterexample: on an account summary set with no property
summaries, `list_accounts` does not surface `NotFound` to its caller — the
in-body `NotFound` is caught by the `except GoogleAPICallError` handler
(`NotFound` subclasses `GoogleAPICallError` but not `PermissionDenied`) and
re-raised as a generic `GoogleAPICallError` wrapping the original message. -/
theorem list_accounts_not_found_is_wrapped :
    surfacesNotFound (list_accounts [acctEmpty]) = false ∧
    list_accounts [acctEmpty] =
      .error (.apiCallError ("A Google API error occurred while listing accounts: " ++
        ("No Google Analytics accounts were found for your user. " ++
         "Please check your permissions."))) :=
  ⟨rfl, rfl⟩

/-- Witness for C10: a populated summary yields the expected record and a
summary set without property summaries yields the wrapped
`GoogleAPICallError`. -/
theorem list_accounts_never_empty_witness :
    (accountRecordsOf acctSample ≠ []) ∧
    (∀ rec ∈ accountRecordsOf acctSample,
      ∃ s ∈ [acctSample], ∃ ps ∈ s.property_summaries,
        rec.display_name = s.display_name ++ " - " ++ ps.display_name ∧
        rec.property_id = lastSegment ps.property) ∧
    list_accounts [acctEmpty] =
      .error (.apiCallError ("A Google API error occurred while listing accounts: " ++
        ("No Google Analytics accounts were found for your user. " ++
         "Please check your permissions."))) :=
  ⟨(list_accounts_never_empty [acctSample]).1 _ (by rfl),
   (list_accounts_never_empty [acctSample]).2.1 _ (by rfl),
   (list_accounts_never_empty [acctEmpty]).2.2 (by decide)⟩

/-- Running `main` always leaves the session loop initialized. -/
theorem app_main_loop_isSome (s : AppProcState) :
    (app_main s).loop.isSome = true := by
  cases hl : s.loop <;>
    simp [app_main, atexit_register, init_session_loop, new_event_loop, hl]

/-- Running `main` on a session whose loop is already initialized leaves the
stored loop untouched. -/
theorem app_main_loop_of_isSome (s : AppProcState) (h : s.loop.isSome = true) :
    (app_main s).loop = s.loop := by
  cases hl : s.loop
  · rw [hl] at h
    simp at h
  · simp [app_main, atexit_register, init_session_loop, new_event_loop, hl]

/-- C2: the session event loop is created lazily on the first script run and
the identical loop is kept by every later run; in particular the scheduler
`run` uses is the same object across two sequential top-level calls. -/
theorem session_loop_created_once (s : AppProcState) (n : Nat) :
    (app_main s).loop.isSome = true ∧
    (app_main^[n + 1] s).loop = (app_main s).loop ∧
    run_async_loop (app_main (app_main s)) = run_async_loop (app_main s) := by
  refine ⟨app_main_loop_isSome s, ?_, ?_⟩
  · induction n with
    | zero => rfl
    | succ m ih =>
        rw [Function.iterate_succ_apply']
        rw [app_main_loop_of_isSome _ (by rw [ih]; exact app_main_loop_isSome s), ih]
  · show (app_main (app_main s)).loop = (app_main s).loop
    exact app_main_loop_of_isSome _ (app_main_loop_isSome s)

/-- C3 counterexample: the GA-accounts fetch of `create_mcp_tools_widget`
runs its tool invocation on a freshly created scheduler (via `asyncio.run`),
not on the bridge's shared session scheduler. -/
theorem ga_accounts_fetch_uses_fresh_loop :
    invocation_loop (app_main initialAppState) .gaAccountsFetch ≠
      run_async_loop (app_main initialAppState) := by
  decide

/-- C3 (amended): the conversation-turn dispatch reaches the synchronous
caller through the bridge's shared scheduler, but the GA-accounts fetch runs
on a freshly created scheduler distinct from the shared one. -/
theorem invocation_scheduler_paths (s : AppProcState) (l : Nat)
    (hloop : s.loop = some l) (hfresh : l < s.nextLoopId) :
    invocation_loop s .chatTurn = run_async_loop s ∧
    invocation_loop s .gaAccountsFetch ≠ run_async_loop s := by
  refine ⟨rfl, ?_⟩
  simp only [invocation_loop, run_async_loop, asyncio_run, new_event_loop, hloop,
    ne_eq, Option.some.injEq]
  omega

/-- Witness for C3's amended theorem on the state after the first script
run, whose session loop has identity 0 and allocator 1. -/
theorem invocation_scheduler_paths_witness :
    invocation_loop (app_main initialAppState) .chatTurn =
      run_async_loop (app_main initialAppState) ∧
    invocation_loop (app_main initialAppState) .gaAccountsFetch ≠
      run_async_loop (app_main initialAppState) :=
  invocation_scheduler_paths (app_main initialAppState) 0 (by rfl) (by decide)

/-- C4 counterexample: `main` registers the shutdown hook on every script
run, so after two UI interactions `atexit` invokes it twice at process
termination — not at most once. -/
theorem shutdown_hook_runs_twice :
    ¬ shutdown_invocations (app_main (app_main initialAppState)) ≤ 1 := by
  decide

/-- Each script run pushes one more `on_shutdown` registration. -/
theorem app_main_shutdown_registrations (s : AppProcState) :
    shutdown_invocations (app_main s) = shutdown_invocations s + 1 := by
  cases hl : s.loop <;>
    simp [shutdown_invocations, app_main, atexit_register, init_session_loop,
      new_event_loop, hl]

/-- C4 (amended): at process termination the shutdown hook runs once per UI
script run that occurred, i.e. exactly `n` times after `n` runs of `main`. -/
theorem shutdown_hook_runs_once_per_script_run (n : Nat) :
    shutdown_invocations (app_main^[n] initialAppState) = n := by
  induction n with
  | zero => rfl
  | succ m ih =>
      rw [Function.iterate_succ_apply', app_main_shutdown_registrations, ih]

/-- C6: `run_tool` on a name absent from the routing map fails with
`ToolNotFound` and performs no network call; on a present name it forwards
the call to the owning session exactly once and returns that session's reply
verbatim. -/
theorem run_tool_dispatch (catalog : ToolCatalog)
    (sessions : Nat → String → List (String × String) → ToolCallResult)
    (tool_name : String) (arguments : List (String × String)) :
    (lookupRoute catalog.routing tool_name = none →
      run_tool catalog sessions tool_name arguments =
        (.error (.toolNotFound tool_name), [])) ∧
    (∀ owner, lookupRoute catalog.routing tool_name = some owner →
      run_tool catalog sessions tool_name arguments =
        (.ok (sessions owner tool_name arguments), [(owner, tool_name, arguments)])) := by
  constructor
  · intro h
    simp [run_tool, h]
  · intro owner h
    simp [run_tool, h]

/-- Witness for C6 on the section-8 catalog: `baz` is rejected without a
call, `foo` is forwarded to session 1 (server B). -/
theorem run_tool_dispatch_witness :
    run_tool catalogSample sessionsSample "baz" [] =
      (.error (.toolNotFound "baz"), []) ∧
    run_tool catalogSample sessionsSample "foo" [] =
      (.ok (sessionsSample 1 "foo" []), [(1, "foo", [])]) :=
  ⟨(run_tool_dispatch catalogSample sessionsSample "baz" []).1 (by rfl),
   (run_tool_dispatch catalogSample sessionsSample "foo" []).2 1 (by rfl)⟩

/-- Searching a filtered list with a predicate that entails the filter
predicate finds the same element as searching the original list. -/
theorem find?_filter_of_imp {α : Type _} (l : List α) (p q : α → Bool)
    (h : ∀ a, p a = true → q a = true) :
    (l.filter q).find? p = l.find? p := by
  induction l with
  | nil => rfl
  | cons a rest ih =>
    by_cases hq : q a = true
    · rw [List.filter_cons_of_pos hq]
      by_cases hp : p a = true
      · rw [List.find?_cons_of_pos _ hp, List.find?_cons_of_pos _ hp]
      · rw [List.find?_cons_of_neg _ hp, List.find?_cons_of_neg _ hp, ih]
    · rw [List.filter_cons_of_neg hq]
      have hp : ¬ p a = true := fun hpa => hq (h a hpa)
      rw [List.find?_cons_of_neg _ hp, ih]

/-- Inserting an entry into the catalog leaves exactly one tool carrying the
inserted name and does not change the multiplicity of other names. -/
theorem filter_insertToolEntry (cat : ToolCatalog) (e : Nat × ToolDescriptor)
    (X : String) :
    ((insertToolEntry cat e).tools.filter (fun t => t.name == X)).length =
      if e.2.name = X then 1
      else (cat.tools.filter (fun t => t.name == X)).length := by
  simp only [insertToolEntry, List.filter_append, List.length_append,
    List.filter_filter]
  by_cases h : e.2.name = X
  · rw [if_pos h]
    have h1 : cat.tools.filter
        (fun t => (t.name == X) && (t.name != e.2.name)) = [] := by
      rw [List.filter_eq_nil_iff]
      intro t _
      by_cases ht : t.name = X
      · simp [ht, h]
      · simp [ht]
    have h2 : List.filter (fun t => t.name == X) [e.2] = [e.2] := by
      simp [h]
    rw [h1, h2]
    simp
  · rw [if_neg h]
    have hxe : X ≠ e.2.name := fun hx => h hx.symm
    have h1 : cat.tools.filter
        (fun t => (t.name == X) && (t.name != e.2.name)) =
        cat.tools.filter (fun t => t.name == X) := by
      apply List.filter_congr
      intro t _
      by_cases ht : t.name = X
      · simp [ht, hxe]
      · simp [ht]
    have h2 : List.filter (fun t => t.name == X) [e.2] = [] := by
      simp [h]
    rw [h1, h2]
    simp

/-- Folding entries into a catalog leaves exactly one tool carrying a name
that occurs among the entries. -/
theorem filter_foldl_insert (entries : List (Nat × ToolDescriptor))
    (cat : ToolCatalog) (X : String) :
    (((entries.foldl insertToolEntry cat).tools.filter
        (fun t => t.name == X)).length) =
      if entries.any (fun e => e.2.name == X) then 1
      else (cat.tools.filter (fun t => t.name == X)).length := by
  induction entries generalizing cat with
  | nil => simp
  | cons e rest ih =>
    rw [List.foldl_cons, ih]
    by_cases hrest : rest.any (fun e => e.2.name == X) = true
    · simp [List.any_cons, hrest]
    · by_cases he : e.2.name = X <;>
        simp [List.any_cons, hrest, he, filter_insertToolEntry]

/-- Routing after one insertion: the inserted name now routes to the inserted
owner, every other name routes as before. -/
theorem lookupRoute_insertToolEntry (cat : ToolCatalog)
    (e : Nat × ToolDescriptor) (X : String) :
    lookupRoute (insertToolEntry cat e).routing X =
      if e.2.name = X then some e.1 else lookupRoute cat.routing X := by
  simp only [lookupRoute, insertToolEntry, List.find?_append]
  by_cases h : e.2.name = X
  · rw [if_pos h]
    have h1 : (cat.routing.filter (fun p => p.1 != e.2.name)).find?
        (fun p => p.1 == X) = none := by
      rw [List.find?_eq_none]
      intro p hp
      rw [List.mem_filter] at hp
      have := hp.2
      subst h
      simpa using this
    rw [h1]
    simp [h]
  · rw [if_neg h]
    have h2 : List.find? (fun p => p.1 == X) [(e.2.name, e.1)] = none := by
      simp [h]
    have hxe : X ≠ e.2.name := fun hx => h hx.symm
    have h1 : (cat.routing.filter (fun p => p.1 != e.2.name)).find?
        (fun p => p.1 == X) = cat.routing.find? (fun p => p.1 == X) := by
      apply find?_filter_of_imp
      intro p hp
      have hpx : p.1 = X := by simpa using hp
      simp [hpx, hxe]
    rw [h1, h2]
    simp

/-- Routing after folding entries into a catalog: a name occurring among the
entries routes to the owner of its last occurrence; other names route as
before. -/
theorem lookupRoute_foldl_insert (entries : List (Nat × ToolDescriptor))
    (cat : ToolCatalog) (X : String) :
    lookupRoute ((entries.foldl insertToolEntry cat).routing) X =
      (lastOwner entries X).or (lookupRoute cat.routing X) := by
  induction entries generalizing cat with
  | nil => simp [lastOwner]
  | cons e rest ih =>
    rw [List.foldl_cons, ih, lookupRoute_insertToolEntry]
    cases hrest : lastOwner rest X with
    | some i => simp [lastOwner, hrest]
    | none =>
      by_cases he : e.2.name = X <;> simp [lastOwner, hrest, he]

/-- The function `lastOwner` distributes over concatenation, later segment first. -/
theorem lastOwner_append (l₁ l₂ : List (Nat × ToolDescriptor)) (X : String) :
    lastOwner (l₁ ++ l₂) X = (lastOwner l₂ X).or (lastOwner l₁ X) := by
  induction l₁ with
  | nil => simp [lastOwner]
  | cons e rest ih =>
    simp only [List.cons_append, lastOwner, List.append_eq]
    rw [ih, Option.or_assoc]

/-- On a single server's tagged entries, `lastOwner` is that server exactly
when the server publishes the name. -/
theorem lastOwner_map_const (i : Nat) (lst : List ToolDescriptor) (X : String) :
    lastOwner (lst.map (fun t => (i, t))) X =
      if lst.any (fun t => t.name == X) then some i else none := by
  induction lst with
  | nil => simp [lastOwner]
  | cons t rest ih =>
    simp only [List.map_cons, lastOwner, ih, List.any_cons]
    by_cases hrest : rest.any (fun t => t.name == X) = true
    · simp [hrest]
    · by_cases ht : t.name = X <;> simp [hrest, ht]

/-- C7: when two connected servers both publish a tool named `X`, the
aggregated catalog contains exactly one entry named `X` and routes `X` to the
second-connected server. -/
theorem aggregate_last_wins (listA listB : List ToolDescriptor) (X : String)
    (_hA : listA.any (fun t => t.name == X) = true)
    (hB : listB.any (fun t => t.name == X) = true) :
    ((aggregate [listA, listB]).tools.filter (fun t => t.name == X)).length = 1 ∧
    lookupRoute (aggregate [listA, listB]).routing X = some 1 := by
  have hentries : entriesFrom 0 [listA, listB] =
      listA.map (fun t => (0, t)) ++ listB.map (fun t => (1, t)) := by
    simp [entriesFrom]
  constructor
  · rw [aggregate, hentries, filter_foldl_insert]
    have hany : (listA.map (fun t => (0, t)) ++
        listB.map (fun t => (1, t))).any (fun e => e.2.name == X) = true := by
      rw [List.any_append, Bool.or_eq_true]
      right
      simpa using hB
    rw [if_pos hany]
  · rw [aggregate, hentries, lookupRoute_foldl_insert, lastOwner_append,
      lastOwner_map_const, lastOwner_map_const, if_pos hB]
    rfl

/-- Witness for C7 on the section-8 scenario: servers A and B both publish
`foo`; the catalog keeps one `foo`, owned by B (session 1). -/
theorem aggregate_last_wins_witness :
    ((aggregate [[toolFooA], [toolFooB, toolBar]]).tools.filter
      (fun t => t.name == "foo")).length = 1 ∧
    lookupRoute (aggregate [[toolFooA], [toolFooB, toolBar]]).routing "foo" =
      some 1 :=
  aggregate_last_wins [toolFooA] [toolFooB, toolBar] "foo" (by decide) (by decide)

/-- Every tool of every configured list appears among the tagged entries. -/
theorem any_entriesFrom (i : Nat) (lists : List (List ToolDescriptor))
    (l : List ToolDescriptor) (hl : l ∈ lists) (t : ToolDescriptor)
    (ht : t ∈ l) :
    (entriesFrom i lists).any (fun e => e.2.name == t.name) = true := by
  induction lists generalizing i with
  | nil => cases hl
  | cons l0 rest ih =>
    simp only [entriesFrom, List.any_append, Bool.or_eq_true]
    rcases List.mem_cons.mp hl with rfl | hmem
    · left
      have hx : l.any (fun u => u.name == t.name) = true :=
        List.any_eq_true.mpr ⟨t, ht, by simp⟩
      simpa using hx
    · right
      exact ih (i + 1) hmem

/-- If some entry carries the name, `lastOwner` finds an owner. -/
theorem lastOwner_isSome_of_any (entries : List (Nat × ToolDescriptor))
    (X : String) (h : entries.any (fun e => e.2.name == X) = true) :
    (lastOwner entries X).isSome = true := by
  induction entries with
  | nil => simp at h
  | cons e rest ih =>
    simp only [List.any_cons, Bool.or_eq_true] at h
    simp only [lastOwner]
    cases hrest : lastOwner rest X with
    | some i => simp
    | none =>
      rcases h with he | hrest'
      · have : e.2.name = X := by simpa using he
        simp [this]
      · have := ih hrest'
        rw [hrest] at this
        simp at this

/-- Every tool of every configured list is represented by name in the
aggregated catalog and is routable. -/
theorem aggregate_covers (lists : List (List ToolDescriptor))
    (l : List ToolDescriptor) (hl : l ∈ lists) (t : ToolDescriptor)
    (ht : t ∈ l) :
    (∃ u ∈ (aggregate lists).tools, u.name = t.name) ∧
    (lookupRoute (aggregate lists).routing t.name).isSome = true := by
  have hany := any_entriesFrom 0 lists l hl t ht
  constructor
  · have hcount :
        ((aggregate lists).tools.filter (fun u => u.name == t.name)).length = 1 := by
      rw [aggregate, filter_foldl_insert, if_pos hany]
    have hpos :
        0 < ((aggregate lists).tools.filter (fun u => u.name == t.name)).length := by
      omega
    obtain ⟨u, hu⟩ := List.exists_mem_of_length_pos hpos
    rw [List.mem_filter] at hu
    exact ⟨u, hu.1, by simpa using hu.2⟩
  · rw [aggregate, lookupRoute_foldl_insert]
    have hsome := lastOwner_isSome_of_any _ _ hany
    cases hlo : lastOwner (entriesFrom 0 lists) t.name with
    | none =>
        rw [hlo] at hsome
        simp at hsome
    | some i => simp [hlo]

/-- C5: the connect flow is all-or-nothing — when the connect click reports
no error the connection state is fully populated (every config has a session
and every session tool is represented in the catalog); when it reports an
error the state is exactly the disconnected baseline. -/
theorem connect_all_all_or_nothing
    (outcome : ServerConfig → Option (List ToolDescriptor))
    (configs : List ServerConfig) (st : ConnectionState) (err : Option String)
    (hclick : mcp_connect_click outcome configs disconnectedState = (st, err)) :
    (err = none → fullyPopulated outcome configs st) ∧
    (err ≠ none → st = disconnectedState) := by
  unfold mcp_connect_click at hclick
  cases hc : connect_all outcome configs with
  | error e =>
    rw [hc] at hclick
    cases e with
    | connectionError n =>
      cases hclick
      exact ⟨fun h => (nomatch h), fun _ => rfl⟩
  | ok newSt =>
    rw [hc] at hclick
    cases hclick
    refine ⟨fun _ => ?_, fun h => absurd rfl h⟩
    unfold connect_all at hc
    cases hf : configs.find? (fun c => (outcome c).isNone) with
    | some c =>
        rw [hf] at hc
        cases hc
    | none =>
      rw [hf] at hc
      cases hc
      constructor
      · intro c hcfg
        have hnone := List.find?_eq_none.mp hf c hcfg
        cases ho : outcome c with
        | none =>
            rw [ho] at hnone
            simp at hnone
        | some ts =>
            refine ⟨ts, rfl, ?_⟩
            apply List.mem_map.mpr
            exact ⟨c, hcfg, by rw [ho]; rfl⟩
      · intro s hs t ht
        obtain ⟨c, hcfg, rfl⟩ := List.mem_map.mp hs
        have hmem : (outcome c).getD [] ∈
            configs.map (fun c => (outcome c).getD []) :=
          List.mem_map.mpr ⟨c, hcfg, rfl⟩
        exact aggregate_covers _ _ hmem t ht

/-- Witness for C5: with both section-8 endpoints succeeding the state is
fully populated; with endpoint B failing the state is the disconnected
baseline. -/
theorem connect_all_all_or_nothing_witness :
    fullyPopulated outcomeOk configsSample
      (mcp_connect_click outcomeOk configsSample disconnectedState).1 ∧
    (mcp_connect_click outcomeFailB configsSample disconnectedState).1 =
      disconnectedState :=
  ⟨(connect_all_all_or_nothing outcomeOk configsSample
      (mcp_connect_click outcomeOk configsSample disconnectedState).1
      (mcp_connect_click outcomeOk configsSample disconnectedState).2 rfl).1
      (by rfl),
   (connect_all_all_or_nothing outcomeFailB configsSample
      (mcp_connect_click outcomeFailB configsSample disconnectedState).1
      (mcp_connect_click outcomeFailB configsSample disconnectedState).2 rfl).2
      (by decide)⟩

/-- A found chat index is within bounds. -/
theorem findChatIndex_lt_length (chats : List ChatSession) (id i : Nat)
    (h : findChatIndex chats id = some i) : i < chats.length := by
  unfold findChatIndex at h
  obtain ⟨hlt, -, -⟩ := List.findIdx?_eq_some_iff_getElem.mp h
  exact hlt

/-- A found chat index points at the session with the sought id. -/
theorem findChatIndex_getD (chats : List ChatSession) (id i : Nat)
    (h : findChatIndex chats id = some i) :
    (chats.getD i default).chat_id = id := by
  unfold findChatIndex at h
  obtain ⟨hlt, hp, -⟩ := List.findIdx?_eq_some_iff_getElem.mp h
  rw [List.getD_eq_getElem _ _ hlt]
  simpa using hp

/-- A present id is found. -/
theorem findChatIndex_isSome_of_mem (chats : List ChatSession)
    (c : ChatSession) (hc : c ∈ chats) :
    (findChatIndex chats c.chat_id).isSome = true := by
  unfold findChatIndex
  rw [List.findIdx?_isSome]
  exact List.any_eq_true.mpr ⟨c, hc, by simp⟩

/-- Introduction form of the bounds check. -/
theorem checkIndex_true (chats : List ChatSession) (k cid : Nat)
    (h1 : k < chats.length) (h2 : (chats.getD k default).chat_id = cid) :
    checkIndex chats k cid = true := by
  simp only [checkIndex, Bool.and_eq_true, decide_eq_true_eq, beq_iff_eq]
  exact ⟨h1, h2⟩

/-- Elimination form of the bounds check. -/
theorem checkIndex_spec (chats : List ChatSession) (k cid : Nat)
    (h : checkIndex chats k cid = true) :
    k < chats.length ∧ (chats.getD k default).chat_id = cid := by
  simp only [checkIndex, Bool.and_eq_true, decide_eq_true_eq, beq_iff_eq] at h
  exact h

/-- Unfolding of the invariant when something is selected: the index exists,
is in bounds, and addresses the selected session. -/
theorem currentIndexValid_some (st : ChatStoreState) (cid : Nat)
    (hcid : st.current_chat_id = some cid) (h : currentIndexValid st = true) :
    ∃ k, st.current_chat_index = some k ∧ k < (displayOrder st).length ∧
      ((displayOrder st).getD k default).chat_id = cid := by
  cases hidx : st.current_chat_index with
  | none =>
    unfold currentIndexValid at h
    rw [hcid, hidx] at h
    simp at h
  | some k =>
    unfold currentIndexValid at h
    rw [hcid, hidx] at h
    obtain ⟨h1, h2⟩ := checkIndex_spec _ _ _ h
    exact ⟨k, rfl, h1, h2⟩

/-- Unfolding of the invariant when nothing is selected: the index is the
empty sentinel. -/
theorem currentIndexValid_none (st : ChatStoreState)
    (hcid : st.current_chat_id = none) (h : currentIndexValid st = true) :
    st.current_chat_index = none := by
  cases hidx : st.current_chat_index with
  | none => rfl
  | some k =>
    unfold currentIndexValid at h
    rw [hcid, hidx] at h
    simp at h

/-- Every chat-store operation preserves the selection-index invariant. -/
theorem applyChatOp_valid (st : ChatStoreState) (op : ChatOp)
    (h : currentIndexValid st = true) :
    currentIndexValid (applyChatOp st op) = true := by
  cases op with
  | create =>
    show currentIndexValid (create_chat st) = true
    unfold create_chat currentIndexValid
    apply checkIndex_true
    · rw [displayOrder, List.reverse_append]
      simp
    · rw [displayOrder, List.reverse_append]
      rfl
  | select id =>
    simp only [applyChatOp]
    cases hsel : select_chat st id with
    | error e => exact h
    | ok st' =>
      unfold select_chat at hsel
      cases hfi : findChatIndex (displayOrder st) id with
      | none =>
        rw [hfi] at hsel
        cases hsel
      | some i =>
        rw [hfi] at hsel
        cases hsel
        have h1 := findChatIndex_lt_length _ _ _ hfi
        have h2 := findChatIndex_getD _ _ _ hfi
        exact checkIndex_true _ _ _ h1 h2
  | delete id =>
    simp only [applyChatOp]
    unfold delete_chat
    cases hfi : findChatIndex (displayOrder st) id with
    | none => simpa [hfi] using h
    | some i =>
      simp only [hfi]
      by_cases hcur : st.current_chat_id = some id
      · rw [if_pos hcur]
        by_cases hemp :
            (st.history_chats.filter (fun c => c.chat_id != id)).reverse.isEmpty
        · rw [if_pos hemp]
          rfl
        · rw [if_neg hemp]
          have hnil :
              (st.history_chats.filter (fun c => c.chat_id != id)).reverse ≠ [] :=
            fun hx => hemp (by rw [hx]; rfl)
          have hlen := List.length_pos.mpr hnil
          have hbound : min i
              ((st.history_chats.filter (fun c => c.chat_id != id)).reverse.length - 1) <
              (st.history_chats.filter (fun c => c.chat_id != id)).reverse.length :=
            lt_of_le_of_lt (min_le_right _ _) (by omega)
          exact checkIndex_true _ _ _ hbound rfl
      · rw [if_neg hcur]
        cases hcid : st.current_chat_id with
        | none =>
          simp only [hcid]
          rfl
        | some cid =>
          obtain ⟨k, hk, hklt, hkid⟩ := currentIndexValid_some st cid hcid h
          have hcidne : cid ≠ id := by
            intro hx
            exact hcur (by rw [hcid, hx])
          have hmem : (displayOrder st).getD k default ∈ displayOrder st := by
            rw [List.getD_eq_getElem _ _ hklt]
            exact List.getElem_mem hklt
          have hval : ((displayOrder st).getD k default).chat_id ≠ id := by
            rw [hkid]
            exact hcidne
          have hmem' : (displayOrder st).getD k default ∈
              (st.history_chats.filter (fun c => c.chat_id != id)).reverse := by
            rw [← List.filter_reverse]
            rw [List.mem_filter]
            exact ⟨hmem, by simpa using hval⟩
          have hfound : (findChatIndex
              ((st.history_chats.filter (fun c => c.chat_id != id)).reverse)
              cid).isSome = true := by
            have hx := findChatIndex_isSome_of_mem _ _ hmem'
            rw [hkid] at hx
            exact hx
          obtain ⟨k', hk'⟩ := Option.isSome_iff_exists.mp hfound
          have h1 := findChatIndex_lt_length _ _ _ hk'
          have h2 := findChatIndex_getD _ _ _ hk'
          simp only [hcid, hk']
          exact checkIndex_true _ _ _ h1 h2

/-- The invariant holds after any operation sequence from the empty store. -/
theorem runChatOps_valid (ops : List ChatOp) :
    currentIndexValid (runChatOps ops) = true := by
  suffices h : ∀ (st : ChatStoreState), currentIndexValid st = true →
      currentIndexValid (ops.foldl applyChatOp st) = true by
    exact h initialChatStore rfl
  induction ops with
  | nil => intro st hst; exact hst
  | cons op rest ih =>
    intro st hst
    exact ih _ (applyChatOp_valid st op hst)

/-- Deleting the current chat leaves a selection whenever chats remain. -/
theorem delete_current_keeps_selection (st : ChatStoreState) (id : Nat)
    (hcur : st.current_chat_id = some id)
    (hne : (delete_chat st id).history_chats.isEmpty = false) :
    (delete_chat st id).current_chat_id.isSome = true := by
  unfold delete_chat at hne ⊢
  cases hfi : findChatIndex (displayOrder st) id with
  | none =>
    simp only [hfi]
    rw [hcur]
    rfl
  | some i =>
    simp only [hfi] at hne ⊢
    rw [if_pos hcur] at hne ⊢
    by_cases hemp :
        (st.history_chats.filter (fun c => c.chat_id != id)).reverse.isEmpty
    · rw [if_pos hemp] at hne
      rw [List.isEmpty_eq_true, List.reverse_eq_nil_iff] at hemp
      simp [hemp] at hne
    · rw [if_neg hemp]
      rfl

/-- C8: after every sequence of chat-store operations the selection index is
valid — it points into the display-ordered session list or is the empty
sentinel — and deleting the currently selected chat either clears the
selection (when no chat remains) or selects a valid remaining chat. -/
theorem chat_store_index_always_valid (ops : List ChatOp) (id : Nat) :
    currentIndexValid (runChatOps ops) = true ∧
    ((runChatOps ops).current_chat_id = some id →
      ((delete_chat (runChatOps ops) id).history_chats.isEmpty = true →
        (delete_chat (runChatOps ops) id).current_chat_id = none ∧
        (delete_chat (runChatOps ops) id).current_chat_index = none) ∧
      ((delete_chat (runChatOps ops) id).history_chats.isEmpty = false →
        ∃ k, (delete_chat (runChatOps ops) id).current_chat_index = some k ∧
          k < (displayOrder (delete_chat (runChatOps ops) id)).length)) := by
  have hvalid := runChatOps_valid ops
  have hvalid' : currentIndexValid (delete_chat (runChatOps ops) id) = true := by
    have := runChatOps_valid (ops ++ [.delete id])
    rwa [runChatOps, List.foldl_append] at this
  refine ⟨hvalid, fun hcur => ⟨fun hemp => ?_, fun hne => ?_⟩⟩
  · cases hcid : (delete_chat (runChatOps ops) id).current_chat_id with
    | none => exact ⟨rfl, currentIndexValid_none _ hcid hvalid'⟩
    | some cid =>
      obtain ⟨k, -, hklt, -⟩ := currentIndexValid_some _ cid hcid hvalid'
      rw [displayOrder, List.length_reverse] at hklt
      rw [List.isEmpty_eq_true] at hemp
      rw [hemp] at hklt
      cases hklt
  · have hsome := delete_current_keeps_selection (runChatOps ops) id hcur hne
    obtain ⟨cid, hcid⟩ := Option.isSome_iff_exists.mp hsome
    obtain ⟨k, hk, hklt, -⟩ := currentIndexValid_some _ cid hcid hvalid'
    exact ⟨k, hk, hklt⟩

/-- Witness for C8 on the spec's scenario: create three chats, then delete
the currently selected one; the store stays valid and keeps a valid
selection. -/
theorem chat_store_index_always_valid_witness :
    currentIndexValid (runChatOps [.create, .create, .create]) = true ∧
    ((delete_chat (runChatOps [.create, .create, .create]) 2).history_chats.isEmpty
        = false →
      ∃ k, (delete_chat (runChatOps [.create, .create, .create]) 2).current_chat_index
          = some k ∧
        k < (displayOrder
          (delete_chat (runChatOps [.create, .create, .create]) 2)).length) :=
  ⟨(chat_store_index_always_valid [.create, .create, .create] 2).1,
   ((chat_store_index_always_valid [.create, .create, .create] 2).2 (by rfl)).2⟩

/-- C1 (code-bug evidence): after 51 chat creations the history widget shows
50 labels, its top entry is the 50th chat (id 49) rather than the newest, the
newest chat (id 50) is absent, and the displayed list differs from the 50
most-recent labels in most-recent-first order. -/
theorem history_menu_omits_newest_chat :
    chats51.history_chats.length = 51 ∧
    (chat_history_menu chats51).length = 50 ∧
    (chat_history_menu chats51).head? =
      some (chatLabel { chat_id := 49, chat_name := "New Chat" }) ∧
    chatLabel { chat_id := 50, chat_name := "New Chat" } ∉ chat_history_menu chats51 ∧
    chat_history_menu chats51 ≠ ((displayOrder chats51).take 50).map chatLabel := by
  refine ⟨by decide, by decide, by decide, by decide, by decide⟩

end MCPPlayground
